import Mathlib

/-!
Verification of the prompt-capture and logging pipeline of the
copilot-prompt-logger extension (src/logger.ts, class CopilotLogger).

Strings are modelled as `List Char`.  Each definition below is a direct
shallow embedding of the corresponding TypeScript function; the JavaScript
regular-expression replacements of `cleanupPrompt` are embedded as
left-to-right scanning functions with the same first-match semantics.
Host-provided values (timestamps, resolved source labels) are parameters,
and file-system writes are modelled by an explicit write environment that
records the outcome of each append attempt.
-/

/-- Strings as lists of characters. -/
abbrev Str := List Char

/-- Convert a Lean string literal into the character-list model. -/
def str (s : String) : Str := s.data

/-- Whitespace predicate used by JavaScript String.prototype.trim
(space, tab, carriage return, newline for the inputs considered here). -/
def wsChar (c : Char) : Bool := c.isWhitespace

/-- JavaScript s.trim(): drop whitespace from both ends. -/
def trimList (s : Str) : Str :=
  ((s.dropWhile wsChar).reverse.dropWhile wsChar).reverse

/-- JavaScript s.startsWith(pat) specialised to the list model:
the second argument is the pattern. -/
def startsWithStr : Str → Str → Bool
  | _, [] => true
  | [], _ :: _ => false
  | c :: cs, p :: ps => c == p && startsWithStr cs ps

/-- JavaScript s.includes(pat): pat occurs as a contiguous substring of s. -/
def includesStr : Str → Str → Bool
  | s, pat =>
    match s with
    | [] => startsWithStr [] pat
    | _ :: rest => startsWithStr s pat || includesStr rest pat

/-- The comparison key of the duplicate filter:
promptText.trim().toLowerCase()  (logger.ts, rememberPrompt / isDuplicate). -/
def normalizeKey (s : Str) : Str := (trimList s).map Char.toLower

/-- isDuplicate (logger.ts line 536): membership of the normalized key in
the recent-prompt history, by exact string equality. -/
def isDuplicate (recentPrompts : List Str) (promptText : Str) : Bool :=
  recentPrompts.contains (normalizeKey promptText)

/-- The history bound MAX_RECENT_PROMPTS (logger.ts line 199). -/
def MAX_RECENT_PROMPTS : Nat := 20

/-- rememberPrompt (logger.ts line 525): push the normalized key at the
front, evict at the back once the size bound is exceeded. -/
def rememberPrompt (recentPrompts : List Str) (promptText : Str) : List Str :=
  let h := normalizeKey promptText :: recentPrompts
  if h.length > MAX_RECENT_PROMPTS then h.dropLast else h

/-- isSystemMessage (logger.ts line 541). -/
def isSystemMessage (text : Str) : Bool :=
  includesStr text (str "Session Started") ||
  includesStr text (str "Session Ended") ||
  includesStr text (str "Prompt at") ||
  startsWithStr text (str "system:")

/-- truncateIfNeeded (logger.ts line 556). -/
def truncateIfNeeded (text : Str) (maxLength : Nat) : Str :=
  if text.length ≤ maxLength then text
  else text.take maxLength ++ str "... [truncated]"

/-- looksLikeResponse (logger.ts line 566). -/
def looksLikeResponse (text : Str) : Bool :=
  let responsePatterns : List Str :=
    [str "Updated content goes here",
     str "The content has been further updated",
     str "Additional content has been added",
     str "This ensures that all necessary details",
     str "Key takeaways and actionable insights",
     str "Further enhancements have been made",
     str "Here is the implementation"]
  if responsePatterns.any (fun pattern => includesStr text pattern) then
    true
  else
    let isTooLong := text.length > 100
    let looksLikeComplete :=
      (startsWithStr text (str "The") && includesStr text (str ".")) ||
      (startsWithStr text (str "This") && includesStr text (str ".")) ||
      (startsWithStr text (str "Updates") && includesStr text (str "."))
    let containsCodeBlocks :=
      includesStr text (str "```") ||
      (includesStr text (str "\x7b") && includesStr text (str "\x7d") &&
        includesStr text (str ";"))
    let containsExplanatory :=
      includesStr text (str "function") ||
      includesStr text (str "class") ||
      includesStr text (str "method") ||
      includesStr text (str "implements")
    (isTooLong && looksLikeComplete) ||
    (isTooLong && containsCodeBlocks && containsExplanatory)

/-! ## cleanupPrompt (logger.ts line 613)

The JavaScript regular-expression replacements are embedded as scanning
functions over the character list, reproducing the engine's left-to-right
first-match search, with scanning resuming after each match and replacement
text never rescanned. -/

/-- Word character of the regex class \w. -/
def wordChar (c : Char) : Bool := c.isAlphanum || c == '_'

/-- After the three opening backticks of /```[\w]*\n/: skip the run of word
characters and require a newline; returns the text after the newline. -/
def skipWordsThenNl : Str → Option Str
  | [] => none
  | c :: rest =>
    if c = '\n' then some rest
    else if wordChar c then skipWordsThenNl rest
    else none

/-- Match the fence opener /```[\w]*\n/ at the head of the string. -/
def matchOpener (s : Str) : Option Str :=
  if startsWithStr s (str "```") then skipWordsThenNl (s.drop 3) else none

/-- Find the first occurrence of the closing fence "```": returns the text
before it (the lazy group [\s\S]*?) and the text after the three backticks. -/
def findClose : Str → Option (Str × Str)
  | [] => none
  | c :: rest =>
    if startsWithStr (c :: rest) (str "```") then some ([], (c :: rest).drop 3)
    else (findClose rest).map (fun pr => (c :: pr.1, pr.2))

/-- Try to match the whole fence pattern /```[\w]*\n([\s\S]*?)```/ at the
head of the string; on success returns the captured group and the remainder. -/
def tryFence (s : Str) : Option (Str × Str) :=
  match matchOpener s with
  | none => none
  | some t => findClose t

/-- Scanner for cleaned.replace(/```[\w]*\n([\s\S]*?)```/g, dollar-one):
each match is replaced by its captured group. -/
def rfGo : Nat → Str → Str
  | 0, s => s
  | _ + 1, [] => []
  | fuel + 1, c :: rest =>
    match tryFence (c :: rest) with
    | some (inner, after) => inner ++ rfGo fuel after
    | none => c :: rfGo fuel rest

/-- cleaned.replace(/```[\w]*\n([\s\S]*?)```/g, dollar-one). -/
def replaceFences (s : Str) : Str := rfGo s.length s

/-- One line-anchored artifact removal /pat.*$/gm restricted to a single
line: delete from the first occurrence of pat to the end of the line. -/
def deleteTailAt (pat : Str) : Str → Str
  | [] => []
  | c :: rest =>
    if startsWithStr (c :: rest) pat then [] else c :: deleteTailAt pat rest

/-- The compound artifact pattern /### .*Prompt at.*$/gm restricted to one
line: delete from the first position where "### " is followed, later in the
line, by "Prompt at". -/
def deleteTailPromptAt : Str → Str
  | [] => []
  | c :: rest =>
    if startsWithStr (c :: rest) (str "### ") &&
        includesStr ((c :: rest).drop 4) (str "Prompt at") then []
    else c :: deleteTailPromptAt rest

/-- JavaScript s.split(backslash-n): split into lines, n separators giving
n + 1 fields. -/
def splitLines : Str → List Str
  | [] => [[]]
  | c :: rest =>
    if c = '\n' then [] :: splitLines rest
    else
      match splitLines rest with
      | [] => [[c]]
      | l :: ls => (c :: l) :: ls

/-- JavaScript lines.join(backslash-n). -/
def joinLines : List Str → Str
  | [] => []
  | [l] => l
  | l :: ls => l ++ '\n' :: joinLines ls

/-- Apply a single-line transformation to every line; since the artifact
patterns never match across a newline, a /gm replace is exactly this. -/
def applyLinewise (f : Str → Str) (s : Str) : Str :=
  joinLines ((splitLines s).map f)

/-- Scanner for the dash-separator removal (regex ---+ with the g flag):
remove every maximal run of three or more dashes. -/
def rdGo : Nat → Str → Str
  | 0, s => s
  | _ + 1, [] => []
  | fuel + 1, c :: rest =>
    if startsWithStr (c :: rest) (str "---") then
      rdGo fuel (((c :: rest).drop 3).dropWhile (fun d => d == '-'))
    else c :: rdGo fuel rest

/-- The dash-separator removal of cleanupPrompt (regex ---+, g flag). -/
def removeDashRuns (s : Str) : Str := rdGo s.length s

/-- Template for the timestamp regex: the character d stands for a digit,
every other character is literal. -/
def tsTemplate : Str := str "dddd-dd-dd dd:dd:dd"

/-- Match a template at the head of the string. -/
def matchesTemplate : Str → Str → Bool
  | [], _ => true
  | _ :: _, [] => false
  | t :: ts, c :: cs =>
    (if t = 'd' then c.isDigit else c == t) && matchesTemplate ts cs

/-- Scanner for the timestamp removal
cleaned.replace(/\d{4}-\d{2}-\d{2} \d{2}:\d{2}:\d{2}/g, ''). -/
def tsGo : Nat → Str → Str
  | 0, s => s
  | _ + 1, [] => []
  | fuel + 1, c :: rest =>
    if matchesTemplate tsTemplate (c :: rest) then
      tsGo fuel ((c :: rest).drop tsTemplate.length)
    else c :: tsGo fuel rest

/-- cleaned.replace(/\d{4}-\d{2}-\d{2} \d{2}:\d{2}:\d{2}/g, ''). -/
def removeTimestamps (s : Str) : Str := tsGo s.length s

/-- cleanupPrompt (logger.ts line 613): fence replacement, the ordered list
of artifact-pattern removals, dash-separator and timestamp removal, then
dropping of blank lines and a final trim. -/
def cleanupPrompt (promptText : Str) : Str :=
  if promptText = [] then []
  else
    let c1 := replaceFences promptText
    let c2 := applyLinewise (deleteTailAt (str "# GitHub Copilot Prompts Log")) c1
    let c3 := applyLinewise (deleteTailAt (str "## Session Started:")) c2
    let c4 := applyLinewise (deleteTailAt (str "## Session Ended:")) c3
    let c5 := applyLinewise deleteTailPromptAt c4
    let c6 := applyLinewise (deleteTailAt (str "#### Context")) c5
    let c7 := applyLinewise (deleteTailAt (str "#### Input")) c6
    let c8 := applyLinewise (deleteTailAt (str "Source:")) c7
    let c9 := applyLinewise (deleteTailAt (str "File:")) c8
    let c10 := removeDashRuns c9
    let c11 := removeTimestamps c10
    trimList (joinLines ((splitLines c11).filter (fun line => !(trimList line).isEmpty)))

/-! ## Pipeline state and the writer (logger.ts lines 194-487)

The configuration snapshot is read-only to the pipeline; timestamps and the
resolved source label are host-provided parameters.  The write environment
records, per append attempt, whether the file-system operation succeeds,
and whether the read-whole-file-then-rewrite fallback succeeds. -/

/-- The capture-mode configuration value. -/
inductive CaptureMode
  | userInputOnly
  | inputAndResponse
  | all
deriving DecidableEq, Repr

/-- The configuration snapshot consumed by the logger. -/
structure Config where
  enabled : Bool
  captureMode : CaptureMode
  includeContext : Bool
deriving DecidableEq, Repr

/-- Outcomes of the file-system operations for one append: attempt n of
appendFileSync succeeds if ok n, and the fallback writeFileSync succeeds
if fallbackOk. -/
structure WriteEnv where
  ok : Nat → Bool
  fallbackOk : Bool

/-- The environment in which every file operation succeeds. -/
def okEnv : WriteEnv := ⟨fun _ => true, true⟩

/-- The environment in which every file operation fails. -/
def failEnv : WriteEnv := ⟨fun _ => false, false⟩

/-- Result of appendWithRetry (logger.ts line 208): whether it returned
normally, how many append attempts were made, and the list of waits (in
milliseconds) performed between consecutive attempts. -/
structure RetryResult where
  success : Bool
  attemptsMade : Nat
  delays : List Nat
deriving DecidableEq, Repr

/-- The loop body of appendWithRetry (logger.ts line 208) at a given
attempt index; the second numeric argument counts the retries still
allowed, i.e. maxRetries minus attempt, so that the loop runs for
attempt = 0 up to maxRetries and waits delay milliseconds after each
failed attempt except the last. -/
def retryFrom (env : WriteEnv) (delay attempt : Nat) : Nat → RetryResult
  | 0 =>
    if env.ok attempt then ⟨true, attempt + 1, []⟩ else ⟨false, attempt + 1, []⟩
  | left + 1 =>
    if env.ok attempt then ⟨true, attempt + 1, []⟩
    else
      let r := retryFrom env delay (attempt + 1) left
      ⟨r.success, r.attemptsMade, delay :: r.delays⟩

/-- appendWithRetry (logger.ts line 208): the loop
for (attempt = 0; attempt <= maxRetries; attempt++), trying the append,
and waiting delay milliseconds after each failed attempt except the last. -/
def appendWithRetry (env : WriteEnv) (delay maxRetries : Nat) : RetryResult :=
  retryFrom env delay 0 maxRetries

/-- Mutable state of the CopilotLogger: the recent-prompt history and the
sequence of chunks appended to the dated log file (the lazily created
header is not modelled; no claim mentions it). -/
structure LoggerState where
  recentPrompts : List Str
  logFile : List Str
deriving DecidableEq, Repr

/-- The initial state of a fresh logger. -/
def st0 : LoggerState := ⟨[], []⟩

/-- appendToLog (logger.ts line 325): no-op when logging is disabled or the
content is blank; otherwise appendWithRetry with maxRetries 3 and delay
100, falling back on total failure to reading the whole file and rewriting
it with the content concatenated; a fallback failure is swallowed. -/
def appendToLog (cfg : Config) (env : WriteEnv) (file : List Str)
    (content : Str) : List Str :=
  if cfg.enabled = false then file
  else if trimList content = [] then file
  else if (appendWithRetry env 100 3).success then file ++ [content]
  else if env.fallbackOk then file ++ [content]
  else file

/-- shouldIncludeContext (logger.ts line 548). -/
def shouldIncludeContext (cfg : Config) (context promptText : Str) : Bool :=
  !context.isEmpty && !(trimList context).isEmpty && context != promptText &&
  !includesStr context (str "User Input") && cfg.includeContext

/-- The log entry built by logPrompt (logger.ts lines 423-436), given the
host-formatted timestamp and the resolved relative path. -/
def buildPromptEntry (cfg : Config) (timestamp relativePath context
    cleanPrompt : Str) : Str :=
  str "\n### User Prompt at " ++ timestamp ++ str "\n\n" ++
  str "Source: " ++ relativePath ++ str "\n\n" ++
  (if shouldIncludeContext cfg context cleanPrompt then
    str "#### Context\n\n```\n" ++ truncateIfNeeded context 500 ++
      str "\n```\n\n"
  else []) ++
  str "#### Input\n\n```\n" ++ cleanPrompt ++ str "\n```\n\n" ++
  str "---\n"

/-- logPrompt (logger.ts line 385): empty check, duplicate check on the raw
text, cleanup, empty-or-system check, response heuristic only under
userInputOnly, remember the cleaned text, then append the formatted entry. -/
def logPrompt (cfg : Config) (env : WriteEnv) (timestamp relativePath
    context promptText : Str) (st : LoggerState) : LoggerState :=
  if trimList promptText = [] then st
  else if isDuplicate st.recentPrompts promptText = true then st
  else
    let cleanPrompt := cleanupPrompt promptText
    if cleanPrompt = [] ∨ trimList cleanPrompt = [] ∨
        isSystemMessage cleanPrompt = true then st
    else if cfg.captureMode = CaptureMode.userInputOnly ∧
        looksLikeResponse cleanPrompt = true then st
    else
      let remembered := rememberPrompt st.recentPrompts cleanPrompt
      let content := buildPromptEntry cfg timestamp relativePath context cleanPrompt
      ⟨remembered, appendToLog cfg env st.logFile content⟩

/-- The minimal log entry built by logUserInput (logger.ts lines 473-480). -/
def userEntry (timestamp source promptText : Str) : Str :=
  str "\n### User Prompt at " ++ timestamp ++ str "\n\n" ++
  str "Source: " ++ source ++ str "\n\n" ++
  str "```\n" ++ promptText ++ str "\n```\n\n" ++
  str "---\n"

/-- logUserInput (logger.ts line 446): empty check, trim only, duplicate
check, then the trimmed text is pushed onto the history directly (without
lowercasing) with bound enforcement, and the minimal entry is appended.
No system-message check, no response heuristic, no capture-mode use. -/
def logUserInput (cfg : Config) (env : WriteEnv) (timestamp source
    promptText : Str) (st : LoggerState) : LoggerState :=
  if trimList promptText = [] then st
  else
    let trimmed := trimList promptText
    if isDuplicate st.recentPrompts trimmed = true then st
    else
      let pushed := trimmed :: st.recentPrompts
      let recentPrompts :=
        if pushed.length > MAX_RECENT_PROMPTS then pushed.dropLast else pushed
      ⟨recentPrompts, appendToLog cfg env st.logFile (userEntry timestamp source trimmed)⟩

/-- Feeding a sequence of prompts to the duplicate filter by repeated
rememberPrompt calls. -/
def feedAll (prompts : List Str) (recentPrompts : List Str) : List Str :=
  prompts.foldl rememberPrompt recentPrompts

/-! ## Auxiliary definitions used by the verification -/

/-- Left trim: the leading-whitespace drop of JavaScript trim. -/
def trimL (s : Str) : Str := s.dropWhile wsChar

/-- Right trim: the trailing-whitespace drop of JavaScript trim. -/
def trimR (s : Str) : Str := (s.reverse.dropWhile wsChar).reverse

/-- The backquote character (the code-fence delimiter). -/
def backquote : Char := Char.ofNat 96

/-- A character on which every removal stage of cleanupPrompt is inert:
not a backquote, hash, colon, dash, newline, or digit. -/
def plainChar (c : Char) : Prop :=
  c ∉ str "`#:-\n" ∧ c.isDigit = false

instance (c : Char) : Decidable (plainChar c) :=
  inferInstanceAs (Decidable (c ∉ str "`#:-\n" ∧ c.isDigit = false))

/-- Configuration: enabled, capture mode all, include context. -/
def cfgAll : Config := ⟨true, CaptureMode.all, true⟩

/-- Configuration: enabled, capture mode userInputOnly, include context. -/
def cfgUser : Config := ⟨true, CaptureMode.userInputOnly, true⟩

/-- Configuration: disabled, capture mode all, include context. -/
def cfgOff : Config := ⟨false, CaptureMode.all, true⟩

/-- A fixed host-provided timestamp used in concrete scenarios. -/
def tsT : Str := str "12:00"

/-- A fixed resolved source label used in concrete scenarios. -/
def srcS : Str := str "app.ts"

/-- An empty context used in concrete scenarios. -/
def ctxC : Str := str ""

/-- The response-like text of the capture-mode gating scenario. -/
def hereText : Str :=
  str "Here is the implementation of the function you requested."

/-- The environment in which every append attempt fails but the rewrite
fallback succeeds. -/
def fallbackEnv : WriteEnv := ⟨fun _ => false, true⟩

/-- Twenty-five pairwise distinct prompts for the bounded-history scenario. -/
def prompts25 : List Str :=
  [str "p1", str "p2", str "p3", str "p4", str "p5",
   str "p6", str "p7", str "p8", str "p9", str "p10",
   str "p11", str "p12", str "p13", str "p14", str "p15",
   str "p16", str "p17", str "p18", str "p19", str "p20",
   str "p21", str "p22", str "p23", str "p24", str "p25"]

/-! ## Lemmas about trimming -/

/-- dropWhile is idempotent. -/
theorem dropWhile_dropWhile (p : Char → Bool) (l : Str) :
    (l.dropWhile p).dropWhile p = l.dropWhile p := by
  induction l with
  | nil => rfl
  | cons a l ih =>
    by_cases h : p a
    · rw [List.dropWhile_cons_of_pos h, ih]
    · rw [List.dropWhile_cons_of_neg h, List.dropWhile_cons_of_neg h]

/-- trimList is trimR after trimL. -/
theorem trimList_eq (s : Str) : trimList s = trimR (trimL s) := rfl

/-- The right trim is a prefix: the string is the right trim followed by
its trailing whitespace. -/
theorem trimR_decomp (l : Str) :
    l = trimR l ++ (l.reverse.takeWhile wsChar).reverse := by
  have h := List.takeWhile_append_dropWhile wsChar l.reverse
  have h2 := congrArg List.reverse h
  rw [List.reverse_append, List.reverse_reverse] at h2
  exact h2.symm

/-- The length of dropWhile is at most the original length. -/
theorem length_dropWhile_le' (p : Char → Bool) (l : Str) :
    (l.dropWhile p).length ≤ l.length := by
  induction l with
  | nil => exact Nat.le_refl 0
  | cons a l ih =>
    by_cases h : p a
    · rw [List.dropWhile_cons_of_pos h]
      exact Nat.le_succ_of_le ih
    · rw [List.dropWhile_cons_of_neg h]

/-- trimR is idempotent. -/
theorem trimR_idem (l : Str) : trimR (trimR l) = trimR l := by
  unfold trimR
  rw [List.reverse_reverse, dropWhile_dropWhile]

/-- Right-trimming preserves the property of being left-trimmed. -/
theorem trimL_trimR (l : Str) (h : trimL l = l) : trimL (trimR l) = trimR l := by
  cases htR : trimR l with
  | nil => rfl
  | cons c t =>
    have hdec := trimR_decomp l
    rw [htR, List.cons_append] at hdec
    have hc : wsChar c = false := by
      by_contra hcc
      have hc' : wsChar c = true := by
        cases hcv : wsChar c
        · exact absurd hcv hcc
        · rfl
      have hlen : (List.dropWhile wsChar l).length < l.length := by
        calc (List.dropWhile wsChar l).length
            = (List.dropWhile wsChar (c :: (t ++ (l.reverse.takeWhile wsChar).reverse))).length := by
              rw [← hdec]
          _ = (List.dropWhile wsChar (t ++ (l.reverse.takeWhile wsChar).reverse)).length := by
              rw [List.dropWhile_cons_of_pos hc']
          _ ≤ (t ++ (l.reverse.takeWhile wsChar).reverse).length := length_dropWhile_le' _ _
          _ < l.length := by
              conv_rhs => rw [hdec]
              simp [List.length_cons, List.length_append]
      rw [show List.dropWhile wsChar l = l from h] at hlen
      exact Nat.lt_irrefl _ hlen
    unfold trimL
    exact List.dropWhile_cons_of_neg (by simp [hc])

/-- JavaScript trim is idempotent. -/
theorem trimList_idem (s : Str) : trimList (trimList s) = trimList s := by
  rw [trimList_eq, trimList_eq s]
  have hL : trimL (trimL s) = trimL s := dropWhile_dropWhile wsChar s
  rw [trimL_trimR (trimL s) hL, trimR_idem]

/-- Characters of the left trim come from the string. -/
theorem mem_trimL {c : Char} {l : Str} (h : c ∈ trimL l) : c ∈ l := by
  have hd := List.takeWhile_append_dropWhile wsChar l
  rw [← hd]
  exact List.mem_append.mpr (Or.inr h)

/-- Characters of the right trim come from the string. -/
theorem mem_trimR {c : Char} {l : Str} (h : c ∈ trimR l) : c ∈ l := by
  rw [trimR_decomp l]
  exact List.mem_append.mpr (Or.inl h)

/-- Characters of the trimmed string come from the string. -/
theorem mem_trimList {c : Char} {l : Str} (h : c ∈ trimList l) : c ∈ l := by
  rw [trimList_eq] at h
  exact mem_trimL (mem_trimR h)

/-- The trim of a string containing a non-whitespace character is nonempty. -/
theorem trimList_ne_nil {l : Str} {c : Char} (hc : c ∈ l)
    (hw : wsChar c = false) : trimList l ≠ [] := by
  intro hnil
  rw [trimList_eq] at hnil
  have h1 : List.dropWhile wsChar (trimL l).reverse = [] := by
    have h0 := congrArg List.reverse hnil
    simp only [trimR, List.reverse_reverse, List.reverse_nil] at h0
    exact h0
  have h2 : ∀ x ∈ (trimL l).reverse, wsChar x = true :=
    List.dropWhile_eq_nil_iff.mp h1
  have h3 : ∀ x ∈ trimL l, wsChar x = true := by
    intro x hx
    exact h2 x (List.mem_reverse.mpr hx)
  have hd := List.takeWhile_append_dropWhile wsChar l
  rcases List.mem_append.mp (by rw [hd]; exact hc :
      c ∈ List.takeWhile wsChar l ++ List.dropWhile wsChar l) with h | h
  · rw [List.mem_takeWhile_imp h] at hw
    exact Bool.true_eq_false.mp hw
  · rw [h3 c h] at hw
    exact Bool.true_eq_false.mp hw

/-- List.contains is membership (the BEq on characters is lawful). -/
theorem contains_iff_mem' {l : List Str} {a : Str} :
    l.contains a = true ↔ a ∈ l :=
  List.elem_iff

/-! ## Identity of the cleanup stages on plain strings -/

/-- A matched pattern prefix has all its characters in the string. -/
theorem startsWithStr_mem : ∀ (pat l : Str), startsWithStr l pat = true →
    ∀ q ∈ pat, q ∈ l := by
  intro pat
  induction pat with
  | nil =>
    intro l _ q hq
    exact absurd hq (List.not_mem_nil q)
  | cons p ps ih =>
    intro l hsw q hq
    cases l with
    | nil => exact absurd hsw (by simp [startsWithStr])
    | cons c cs =>
      have hand := hsw
      simp only [startsWithStr, Bool.and_eq_true, beq_iff_eq] at hand
      rcases List.mem_cons.mp hq with hqe | hqs
      · rw [hqe, ← hand.1]
        exact List.mem_cons_self c cs
      · exact List.mem_cons_of_mem c (ih cs hand.2 q hqs)

/-- A pattern containing a character absent from the string never matches
at the head. -/
theorem startsWithStr_eq_false {pat l : Str} {q : Char} (hq : q ∈ pat)
    (hnl : q ∉ l) : startsWithStr l pat = false := by
  cases hsw : startsWithStr l pat
  · rfl
  · exact absurd (startsWithStr_mem pat l hsw q hq) hnl

/-- The fence replacement leaves a backquote-free string unchanged. -/
theorem rfGo_id : ∀ (fuel : Nat) (l : Str), backquote ∉ l → rfGo fuel l = l := by
  intro fuel
  induction fuel with
  | zero => intro l _; rfl
  | succ fuel ih =>
    intro l hb
    cases l with
    | nil => rfl
    | cons c rest =>
      have hsw : startsWithStr (c :: rest) (str "```") = false :=
        startsWithStr_eq_false (by decide) hb
      have hnone : tryFence (c :: rest) = none := by
        simp [tryFence, matchOpener, hsw]
      rw [rfGo, hnone]
      have hbr : backquote ∉ rest := fun h => hb (List.mem_cons_of_mem c h)
      rw [ih rest hbr]

/-- An artifact removal whose pattern contains a character absent from the
line leaves the line unchanged. -/
theorem deleteTailAt_id {pat : Str} {q : Char} (hq : q ∈ pat) :
    ∀ (l : Str), q ∉ l → deleteTailAt pat l = l := by
  intro l
  induction l with
  | nil => intro _; rfl
  | cons c rest ih =>
    intro hnl
    have hsw : startsWithStr (c :: rest) pat = false :=
      startsWithStr_eq_false hq hnl
    rw [deleteTailAt, hsw]
    simp only [Bool.false_eq_true, if_false]
    rw [ih (fun h => hnl (List.mem_cons_of_mem c h))]

/-- The compound Prompt-at removal leaves a hash-free line unchanged. -/
theorem deleteTailPromptAt_id : ∀ (l : Str), '#' ∉ l →
    deleteTailPromptAt l = l := by
  intro l
  induction l with
  | nil => intro _; rfl
  | cons c rest ih =>
    intro hnl
    have hsw : startsWithStr (c :: rest) (str "### ") = false :=
      startsWithStr_eq_false (by decide) hnl
    rw [deleteTailPromptAt, hsw]
    simp only [Bool.false_and, Bool.false_eq_true, if_false]
    rw [ih (fun h => hnl (List.mem_cons_of_mem c h))]

/-- The dash-run removal leaves a dash-free string unchanged. -/
theorem rdGo_id : ∀ (fuel : Nat) (l : Str), '-' ∉ l → rdGo fuel l = l := by
  intro fuel
  induction fuel with
  | zero => intro l _; rfl
  | succ fuel ih =>
    intro l hd
    cases l with
    | nil => rfl
    | cons c rest =>
      have hsw : startsWithStr (c :: rest) (str "---") = false :=
        startsWithStr_eq_false (by decide) hd
      rw [rdGo, hsw]
      simp only [Bool.false_eq_true, if_false]
      rw [ih rest (fun h => hd (List.mem_cons_of_mem c h))]

/-- The timestamp removal leaves a digit-free string unchanged. -/
theorem tsGo_id : ∀ (fuel : Nat) (l : Str), (∀ c ∈ l, c.isDigit = false) →
    tsGo fuel l = l := by
  intro fuel
  induction fuel with
  | zero => intro l _; rfl
  | succ fuel ih =>
    intro l hd
    cases l with
    | nil => rfl
    | cons c rest =>
      have hc : c.isDigit = false := hd c (List.mem_cons_self c rest)
      have hmt : matchesTemplate tsTemplate (c :: rest) = false := by
        rw [show tsTemplate = 'd' :: str "ddd-dd-dd dd:dd:dd" from rfl]
        rw [matchesTemplate]
        simp [hc]
      rw [tsGo, hmt]
      simp only [Bool.false_eq_true, if_false]
      rw [ih rest (fun x hx => hd x (List.mem_cons_of_mem c hx))]

/-- A newline-free string is a single line. -/
theorem splitLines_id : ∀ (l : Str), '\n' ∉ l → splitLines l = [l] := by
  intro l
  induction l with
  | nil => intro _; rfl
  | cons c rest ih =>
    intro hnl
    have hc : ¬(c = '\n') := fun h => hnl (by rw [h]; exact List.mem_cons_self _ _)
    rw [splitLines, if_neg hc, ih (fun h => hnl (List.mem_cons_of_mem c h))]

/-- A linewise removal is the identity on a single inert line. -/
theorem applyLinewise_id (f : Str → Str) (s : Str) (hnl : '\n' ∉ s)
    (hf : f s = s) : applyLinewise f s = s := by
  unfold applyLinewise
  rw [splitLines_id s hnl, List.map_cons, List.map_nil, hf]
  rfl

/-- On strings free of backquotes, hashes, colons, dashes, newlines and
digits, cleanupPrompt reduces to JavaScript trim. -/
theorem cleanupPrompt_plain (s : Str) (h : ∀ c ∈ s, plainChar c) :
    cleanupPrompt s = trimList s := by
  have hbq : backquote ∉ s := fun hm => (h backquote hm).1 (by decide)
  have hhash : '#' ∉ s := fun hm => (h '#' hm).1 (by decide)
  have hcolon : ':' ∉ s := fun hm => (h ':' hm).1 (by decide)
  have hdash : '-' ∉ s := fun hm => (h '-' hm).1 (by decide)
  have hnl : '\n' ∉ s := fun hm => (h '\n' hm).1 (by decide)
  have hdig : ∀ c ∈ s, c.isDigit = false := fun c hc => (h c hc).2
  by_cases hs : s = []
  · rw [hs]; rfl
  · unfold cleanupPrompt
    rw [if_neg hs]
    simp only []
    rw [show replaceFences s = s from rfGo_id _ s hbq]
    rw [applyLinewise_id _ s hnl
      (deleteTailAt_id (show ('#' : Char) ∈ str "# GitHub Copilot Prompts Log" by decide) s hhash)]
    rw [applyLinewise_id _ s hnl
      (deleteTailAt_id (show ('#' : Char) ∈ str "## Session Started:" by decide) s hhash)]
    rw [applyLinewise_id _ s hnl
      (deleteTailAt_id (show ('#' : Char) ∈ str "## Session Ended:" by decide) s hhash)]
    rw [applyLinewise_id _ s hnl (deleteTailPromptAt_id s hhash)]
    rw [applyLinewise_id _ s hnl
      (deleteTailAt_id (show ('#' : Char) ∈ str "#### Context" by decide) s hhash)]
    rw [applyLinewise_id _ s hnl
      (deleteTailAt_id (show ('#' : Char) ∈ str "#### Input" by decide) s hhash)]
    rw [applyLinewise_id _ s hnl
      (deleteTailAt_id (show (':' : Char) ∈ str "Source:" by decide) s hcolon)]
    rw [applyLinewise_id _ s hnl
      (deleteTailAt_id (show (':' : Char) ∈ str "File:" by decide) s hcolon)]
    rw [show removeDashRuns s = s from rdGo_id _ s hdash]
    rw [show removeTimestamps s = s from tsGo_id _ s hdig]
    rw [splitLines_id s hnl]
    by_cases ht : trimList s = []
    · have hstep : List.filter (fun line => !(trimList line).isEmpty) [s] = [] := by
        simp [List.filter_cons, List.filter_nil, ht]
      rw [hstep, ht]
      rfl
    · have hne : (trimList s).isEmpty = false := by
        cases hie : (trimList s).isEmpty
        · rfl
        · exact absurd (List.isEmpty_iff.mp hie) ht
      have hstep : List.filter (fun line => !(trimList line).isEmpty) [s] = [s] := by
        simp [List.filter_cons, List.filter_nil, hne]
      rw [hstep]
      rfl

/-- Plainness is preserved by trimming. -/
theorem plain_trimList {s : Str} (h : ∀ c ∈ s, plainChar c) :
    ∀ c ∈ trimList s, plainChar c :=
  fun c hc => h c (mem_trimList hc)

/-- The output of cleanupPrompt is already trimmed. -/
theorem trimList_cleanupPrompt (t : Str) :
    trimList (cleanupPrompt t) = cleanupPrompt t := by
  unfold cleanupPrompt
  by_cases ht : t = []
  · rw [if_pos ht]; rfl
  · rw [if_neg ht]
    simp only []
    exact trimList_idem _

/-! ## Lemmas about the duplicate filter -/

/-- Under the invariant, rememberPrompt is push-in-front with take. -/
theorem rememberPrompt_take (h : List Str) (x : Str) (hlen : h.length ≤ 20) :
    rememberPrompt h x = (normalizeKey x :: h).take 20 := by
  unfold rememberPrompt MAX_RECENT_PROMPTS
  simp only []
  by_cases hgt : (normalizeKey x :: h).length > 20
  · rw [if_pos hgt, List.dropLast_eq_take]
    have h21 : (normalizeKey x :: h).length = 21 := by
      simp only [List.length_cons] at hgt ⊢
      omega
    rw [h21]
  · rw [if_neg hgt]
    rw [List.take_of_length_le (Nat.le_of_not_lt hgt)]

/-- The remembered key is always present after rememberPrompt. -/
theorem rememberPrompt_mem (h : List Str) (x : Str) :
    normalizeKey x ∈ rememberPrompt h x := by
  unfold rememberPrompt
  simp only []
  by_cases hgt : (normalizeKey x :: h).length > MAX_RECENT_PROMPTS
  · rw [if_pos hgt]
    cases h with
    | nil => simp [MAX_RECENT_PROMPTS] at hgt
    | cons y ys =>
      rw [List.dropLast_cons₂]
      exact List.mem_cons_self _ _
  · rw [if_neg hgt]
    exact List.mem_cons_self _ _

/-- Taking n of an append whose right part is already cut at n. -/
theorem take_append_take (a b : List Str) (n : Nat) :
    (a ++ b.take n).take n = (a ++ b).take n := by
  rw [List.take_append_eq_append_take, List.take_append_eq_append_take,
    List.take_take]
  congr 1
  rw [Nat.min_eq_left (Nat.sub_le n a.length)]

/-- Feeding prompts into the filter keeps the most recent twenty keys. -/
theorem feedAll_take : ∀ (ps : List Str) (h : List Str), h.length ≤ 20 →
    feedAll ps h = ((ps.map normalizeKey).reverse ++ h).take 20 := by
  intro ps
  induction ps with
  | nil =>
    intro h hlen
    simp [feedAll, List.take_of_length_le hlen]
  | cons p ps ih =>
    intro h hlen
    have h1 : feedAll (p :: ps) h = feedAll ps (rememberPrompt h p) := rfl
    have hb : (rememberPrompt h p).length ≤ 20 := by
      rw [rememberPrompt_take h p hlen, List.length_take]
      exact Nat.min_le_left _ _
    rw [h1, ih _ hb, rememberPrompt_take h p hlen, take_append_take]
    simp [List.reverse_cons, List.append_assoc]

/-! ## Lemmas about the writer -/

/-- The retry loop returns at a successful attempt. -/
theorem retryFrom_hit (env : WriteEnv) (delay attempt left : Nat)
    (hok : env.ok attempt = true) :
    retryFrom env delay attempt left = ⟨true, attempt + 1, []⟩ := by
  cases left with
  | zero => rw [retryFrom, if_pos hok]
  | succ left => rw [retryFrom, if_pos hok]

/-- The retry loop delays and retries after a failed non-final attempt. -/
theorem retryFrom_step (env : WriteEnv) (delay attempt left : Nat)
    (hok : env.ok attempt = false) :
    retryFrom env delay attempt (left + 1) =
      ⟨(retryFrom env delay (attempt + 1) left).success,
       (retryFrom env delay (attempt + 1) left).attemptsMade,
       delay :: (retryFrom env delay (attempt + 1) left).delays⟩ := by
  rw [retryFrom, if_neg (by simp [hok])]

/-- The retry loop declares failure after the final failed attempt. -/
theorem retryFrom_last (env : WriteEnv) (delay attempt : Nat)
    (hok : env.ok attempt = false) :
    retryFrom env delay attempt 0 = ⟨false, attempt + 1, []⟩ := by
  rw [retryFrom, if_neg (by simp [hok])]

/-- With four failed attempts, the retry loop of appendToLog fails after
four attempts with three 100ms delays. -/
theorem appendWithRetry_fail4 (env : WriteEnv) (h0 : env.ok 0 = false)
    (h1 : env.ok 1 = false) (h2 : env.ok 2 = false) (h3 : env.ok 3 = false) :
    appendWithRetry env 100 3 = ⟨false, 4, [100, 100, 100]⟩ := by
  unfold appendWithRetry
  rw [retryFrom_step env 100 0 2 h0, retryFrom_step env 100 1 1 h1,
    retryFrom_step env 100 2 0 h2, retryFrom_last env 100 3 h3]

/-- appendToLog is a no-op when logging is disabled. -/
theorem appendToLog_disabled (cfg : Config) (env : WriteEnv) (file : List Str)
    (content : Str) (h : cfg.enabled = false) :
    appendToLog cfg env file content = file := by
  unfold appendToLog
  rw [if_pos h]

/-- appendToLog appends when enabled, nonblank and the retry succeeds. -/
theorem appendToLog_ok (cfg : Config) (env : WriteEnv) (file : List Str)
    (content : Str) (he : cfg.enabled = true) (hc : trimList content ≠ [])
    (hr : (appendWithRetry env 100 3).success = true) :
    appendToLog cfg env file content = file ++ [content] := by
  unfold appendToLog
  rw [if_neg (by simp [he]), if_neg hc, if_pos hr]

/-- appendToLog appends through the rewrite fallback when the retries fail
but the fallback write succeeds. -/
theorem appendToLog_fallback (cfg : Config) (env : WriteEnv) (file : List Str)
    (content : Str) (he : cfg.enabled = true) (hc : trimList content ≠ [])
    (hr : (appendWithRetry env 100 3).success = false)
    (hf : env.fallbackOk = true) :
    appendToLog cfg env file content = file ++ [content] := by
  unfold appendToLog
  rw [if_neg (by simp [he]), if_neg hc, if_neg (by simp [hr]), if_pos hf]

/-- appendToLog leaves the file unchanged when the retries and the fallback
all fail. -/
theorem appendToLog_fail (cfg : Config) (env : WriteEnv) (file : List Str)
    (content : Str) (hr : (appendWithRetry env 100 3).success = false)
    (hf : env.fallbackOk = false) :
    appendToLog cfg env file content = file := by
  unfold appendToLog
  by_cases h1 : cfg.enabled = false
  · rw [if_pos h1]
  · rw [if_neg h1]
    by_cases h2 : trimList content = []
    · rw [if_pos h2]
    · rw [if_neg h2, if_neg (by simp [hr]), if_neg (by simp [hf])]

/-! ## Branch lemmas for the two pipeline entry points -/

/-- The full entry is never blank: it contains a hash character. -/
theorem buildPromptEntry_ne_blank (cfg : Config) (ts src ctx clean : Str) :
    trimList (buildPromptEntry cfg ts src ctx clean) ≠ [] := by
  have hm : ('#' : Char) ∈ buildPromptEntry cfg ts src ctx clean := by
    unfold buildPromptEntry
    repeat apply List.mem_append_left
    decide
  exact trimList_ne_nil hm (by decide)

/-- The minimal entry is never blank: it contains a hash character. -/
theorem userEntry_ne_blank (ts src text : Str) :
    trimList (userEntry ts src text) ≠ [] := by
  have hm : ('#' : Char) ∈ userEntry ts src text := by
    unfold userEntry
    repeat apply List.mem_append_left
    decide
  exact trimList_ne_nil hm (by decide)

/-- logPrompt skips blank raw text. -/
theorem logPrompt_empty (cfg : Config) (env : WriteEnv)
    (ts src ctx text : Str) (st : LoggerState) (h : trimList text = []) :
    logPrompt cfg env ts src ctx text st = st := by
  unfold logPrompt
  rw [if_pos h]

/-- logPrompt skips a duplicate of the raw text. -/
theorem logPrompt_dup (cfg : Config) (env : WriteEnv)
    (ts src ctx text : Str) (st : LoggerState)
    (h : isDuplicate st.recentPrompts text = true) :
    logPrompt cfg env ts src ctx text st = st := by
  unfold logPrompt
  by_cases h0 : trimList text = []
  · rw [if_pos h0]
  · rw [if_neg h0, if_pos h]

/-- The accepted branch of logPrompt: remember the cleaned text, then hand
the formatted entry to the writer. -/
theorem logPrompt_accepted (cfg : Config) (env : WriteEnv)
    (ts src ctx text : Str) (st : LoggerState)
    (h0 : trimList text ≠ [])
    (h1 : isDuplicate st.recentPrompts text = false)
    (h2 : cleanupPrompt text ≠ [])
    (h3 : isSystemMessage (cleanupPrompt text) = false)
    (h4 : ¬(cfg.captureMode = CaptureMode.userInputOnly ∧
        looksLikeResponse (cleanupPrompt text) = true)) :
    logPrompt cfg env ts src ctx text st =
      ⟨rememberPrompt st.recentPrompts (cleanupPrompt text),
       appendToLog cfg env st.logFile
         (buildPromptEntry cfg ts src ctx (cleanupPrompt text))⟩ := by
  unfold logPrompt
  rw [if_neg h0, if_neg (by simp [h1])]
  simp only []
  have hreject : ¬(cleanupPrompt text = [] ∨ trimList (cleanupPrompt text) = [] ∨
      isSystemMessage (cleanupPrompt text) = true) := by
    push_neg
    refine ⟨h2, ?_, by simp [h3]⟩
    rw [trimList_cleanupPrompt]
    exact h2
  rw [if_neg hreject, if_neg h4]

/-- logUserInput skips a duplicate of the trimmed text. -/
theorem logUserInput_dup (cfg : Config) (env : WriteEnv)
    (ts src text : Str) (st : LoggerState)
    (h : isDuplicate st.recentPrompts (trimList text) = true) :
    logUserInput cfg env ts src text st = st := by
  unfold logUserInput
  by_cases h0 : trimList text = []
  · rw [if_pos h0]
  · rw [if_neg h0]
    simp only []
    rw [if_pos h]

/-- The accepted branch of logUserInput: push the trimmed text itself onto
the history and hand the minimal entry to the writer. -/
theorem logUserInput_accepted (cfg : Config) (env : WriteEnv)
    (ts src text : Str) (st : LoggerState)
    (h0 : trimList text ≠ [])
    (h1 : isDuplicate st.recentPrompts (trimList text) = false) :
    logUserInput cfg env ts src text st =
      ⟨if (trimList text :: st.recentPrompts).length > MAX_RECENT_PROMPTS
          then (trimList text :: st.recentPrompts).dropLast
          else trimList text :: st.recentPrompts,
       appendToLog cfg env st.logFile (userEntry ts src (trimList text))⟩ := by
  unfold logUserInput
  rw [if_neg h0]
  simp only []
  rw [if_neg (by simp [h1])]

/-- The log file is never written by logPrompt when logging is disabled. -/
theorem logPrompt_logFile_disabled (cfg : Config) (env : WriteEnv)
    (ts src ctx text : Str) (st : LoggerState) (h : cfg.enabled = false) :
    (logPrompt cfg env ts src ctx text st).logFile = st.logFile := by
  unfold logPrompt
  split
  · rfl
  split
  · rfl
  simp only []
  split
  · rfl
  split
  · rfl
  simp only []
  rw [appendToLog_disabled _ _ _ _ h]

/-- The log file is never written by logUserInput when logging is disabled. -/
theorem logUserInput_logFile_disabled (cfg : Config) (env : WriteEnv)
    (ts src text : Str) (st : LoggerState) (h : cfg.enabled = false) :
    (logUserInput cfg env ts src text st).logFile = st.logFile := by
  unfold logUserInput
  split
  · rfl
  simp only []
  split
  · rfl
  simp only []
  rw [appendToLog_disabled _ _ _ _ h]

/-! ## Claims -/

/-- C2 counterexample: normalization is not idempotent.  On the input
consisting of five backquotes, a newline, a backquote, a newline, hello,
three backquotes, x and three backquotes, the first cleanup produces a
string that still contains a complete code fence, so a second cleanup
changes it again. -/
theorem C2_cleanup_not_idempotent :
    cleanupPrompt (cleanupPrompt (str "`````\n`\nhello```x```")) ≠
      cleanupPrompt (str "`````\n`\nhello```x```") := by
  decide

/-- C2 (amended): cleanupPrompt is not idempotent in general, because the
fence replacement can manufacture new fences and the mid-line removals can
manufacture new artifact patterns; it is idempotent on every string having
no backquote, hash, colon, dash, newline or digit, where one application
reduces to JavaScript trim. -/
theorem C2_cleanup_idempotent_on_plain (s : Str) (h : ∀ c ∈ s, plainChar c) :
    cleanupPrompt (cleanupPrompt s) = cleanupPrompt s := by
  rw [cleanupPrompt_plain s h, cleanupPrompt_plain _ (plain_trimList h),
    trimList_idem]

/-- C2 witness: the amended idempotence applied to a concrete plain string. -/
theorem C2_cleanup_idempotent_on_plain_witness :
    (∀ c ∈ str "hello world", plainChar c) ∧
    cleanupPrompt (cleanupPrompt (str "hello world")) =
      cleanupPrompt (str "hello world") :=
  ⟨by decide, C2_cleanup_idempotent_on_plain (str "hello world") (by decide)⟩

/-- C3: the recent-prompt history is bounded by twenty, insertion is at the
front and eviction at the back; feeding twenty-five prompts with pairwise
distinct normalized keys leaves exactly the twenty most recent keys
(most-recent-first), and none of the five oldest prompts is still flagged
as a duplicate. -/
theorem C3_bounded_history :
    (∀ (h : List Str) (x : Str), h.length ≤ 20 →
      rememberPrompt h x = (normalizeKey x :: h).take 20) ∧
    (∀ (ps : List Str) (h : List Str), h.length ≤ 20 →
      (feedAll ps h).length ≤ 20) ∧
    (∀ ps : List Str, ps.length = 25 → (ps.map normalizeKey).Nodup →
      feedAll ps [] = ((ps.map normalizeKey).reverse).take 20 ∧
      ∀ p ∈ ps.take 5, isDuplicate (feedAll ps []) p = false) := by
  refine ⟨rememberPrompt_take, ?_, ?_⟩
  · intro ps h hlen
    rw [feedAll_take ps h hlen, List.length_take]
    exact Nat.min_le_left _ _
  · intro ps hlen hnd
    have hfeed : feedAll ps [] = ((ps.map normalizeKey).reverse).take 20 := by
      rw [feedAll_take ps [] (by simp), List.append_nil]
    refine ⟨hfeed, ?_⟩
    intro p hp
    have hlks : (ps.map normalizeKey).length = 25 := by
      rw [List.length_map, hlen]
    have hsplit : ps.map normalizeKey =
        (ps.map normalizeKey).take 5 ++ (ps.map normalizeKey).drop 5 :=
      (List.take_append_drop 5 (ps.map normalizeKey)).symm
    have hlen20 : ((ps.map normalizeKey).drop 5).reverse.length = 20 := by
      rw [List.length_reverse, List.length_drop, hlks]
    have htake : (ps.map normalizeKey).reverse.take 20 =
        ((ps.map normalizeKey).drop 5).reverse := by
      conv_lhs => rw [hsplit]
      rw [List.reverse_append]
      exact List.take_left' hlen20
    have hkey : normalizeKey p ∈ (ps.map normalizeKey).take 5 := by
      rw [← List.map_take]
      exact List.mem_map_of_mem normalizeKey hp
    have hnd2 : ((ps.map normalizeKey).take 5 ++
        (ps.map normalizeKey).drop 5).Nodup := by
      rw [← hsplit]
      exact hnd
    have hdisj := (List.nodup_append.mp hnd2).2.2
    have hnot : normalizeKey p ∉ ((ps.map normalizeKey).drop 5).reverse := by
      rw [List.mem_reverse]
      exact fun hmem => hdisj hkey hmem
    rw [hfeed, htake]
    unfold isDuplicate
    cases hcon : (((ps.map normalizeKey).drop 5).reverse).contains (normalizeKey p)
    · rfl
    · exact absurd (contains_iff_mem'.mp hcon) hnot

/-- C3 witness: the bounded-history theorem applied to twenty-five concrete
distinct prompts. -/
theorem C3_bounded_history_witness :
    prompts25.length = 25 ∧ (prompts25.map normalizeKey).Nodup ∧
    (feedAll prompts25 [] = ((prompts25.map normalizeKey).reverse).take 20 ∧
     ∀ p ∈ prompts25.take 5, isDuplicate (feedAll prompts25 []) p = false) :=
  ⟨by decide, by decide, C3_bounded_history.2.2 prompts25 (by decide) (by decide)⟩

/-- C1 counterexample: the duplicate key actually stored differs from the
claimed normalized key.  Submitting "fix the bug" and then "Fix The Bug  "
through logUserInput in that order writes two entries, although the two
texts have the same normalized (trimmed, lowercased) form and the first was
accepted and logged: logUserInput stores the trimmed text without
lowercasing, so the second submission's lowercased key misses it. -/
theorem C1_counterexample :
    normalizeKey (str "Fix The Bug  ") = normalizeKey (str "fix the bug") ∧
    (logUserInput cfgAll okEnv tsT srcS (str "Fix The Bug  ") st0).logFile.length = 1 ∧
    (logUserInput cfgAll okEnv tsT srcS (str "fix the bug")
      (logUserInput cfgAll okEnv tsT srcS (str "Fix The Bug  ") st0)).logFile.length = 1 + 1 := by
  decide

/-- C1 (amended): suppression compares the incoming text's normalized
(trimmed, lowercased) form against the stored history strings by exact
equality, where logPrompt stores the trimmed lowercased cleaned text and
logUserInput stores the trimmed text without lowercasing; a submission
whose normalized form is already stored produces no LogEntry and leaves
the state unchanged on either path, and the specific sequence
"fix the bug" then "Fix The Bug  " writes exactly one entry on both paths. -/
theorem C1_duplicate_suppression :
    (∀ (cfg : Config) (env : WriteEnv) (ts src ctx text : Str) (st : LoggerState),
      isDuplicate st.recentPrompts text = true →
      logPrompt cfg env ts src ctx text st = st) ∧
    (∀ (cfg : Config) (env : WriteEnv) (ts src text : Str) (st : LoggerState),
      isDuplicate st.recentPrompts (trimList text) = true →
      logUserInput cfg env ts src text st = st) ∧
    (logPrompt cfgAll okEnv tsT srcS ctxC (str "Fix The Bug  ")
        (logPrompt cfgAll okEnv tsT srcS ctxC (str "fix the bug") st0)).logFile.length = 1 ∧
    (logUserInput cfgAll okEnv tsT srcS (str "Fix The Bug  ")
        (logUserInput cfgAll okEnv tsT srcS (str "fix the bug") st0)).logFile.length = 1 :=
  ⟨logPrompt_dup, logUserInput_dup, by decide, by decide⟩

/-- C1 witness: the suppression law applied to a concrete duplicate. -/
theorem C1_duplicate_suppression_witness :
    isDuplicate [str "fix the bug"] (str "fix the bug") = true ∧
    logPrompt cfgAll okEnv tsT srcS ctxC (str "fix the bug")
        ⟨[str "fix the bug"], []⟩ = ⟨[str "fix the bug"], []⟩ :=
  ⟨by decide, C1_duplicate_suppression.1 cfgAll okEnv tsT srcS ctxC
    (str "fix the bug") ⟨[str "fix the bug"], []⟩ (by decide)⟩

/-- C4: the response heuristic gates only the userInputOnly mode: under any
other capture mode an enabled logPrompt accepts and appends every prompt
that is nonblank, not a duplicate, nonempty after cleanup and not a system
message; the concrete response-like sentence is rejected under
userInputOnly but produces one entry under mode all. -/
theorem C4_capture_mode_gating :
    (∀ (cfg : Config) (ts src ctx text : Str) (st : LoggerState),
      cfg.enabled = true → cfg.captureMode ≠ CaptureMode.userInputOnly →
      trimList text ≠ [] → isDuplicate st.recentPrompts text = false →
      cleanupPrompt text ≠ [] → isSystemMessage (cleanupPrompt text) = false →
      (logPrompt cfg okEnv ts src ctx text st).logFile =
        st.logFile ++ [buildPromptEntry cfg ts src ctx (cleanupPrompt text)]) ∧
    logPrompt cfgUser okEnv tsT srcS ctxC hereText st0 = st0 ∧
    (logPrompt cfgAll okEnv tsT srcS ctxC hereText st0).logFile.length = 1 := by
  refine ⟨?_, by decide, by decide⟩
  intro cfg ts src ctx text st he hm h0 h1 h2 h3
  rw [logPrompt_accepted cfg okEnv ts src ctx text st h0 h1 h2 h3
    (fun hc => hm hc.1)]
  exact appendToLog_ok _ _ _ _ he (buildPromptEntry_ne_blank _ _ _ _ _) (by decide)

/-- C4 witness: the acceptance law applied under capture mode all. -/
theorem C4_capture_mode_gating_witness :
    cfgAll.enabled = true ∧ cfgAll.captureMode ≠ CaptureMode.userInputOnly ∧
    trimList hereText ≠ [] ∧ isDuplicate st0.recentPrompts hereText = false ∧
    cleanupPrompt hereText ≠ [] ∧ isSystemMessage (cleanupPrompt hereText) = false ∧
    (logPrompt cfgAll okEnv tsT srcS ctxC hereText st0).logFile =
      st0.logFile ++ [buildPromptEntry cfgAll tsT srcS ctxC (cleanupPrompt hereText)] :=
  ⟨rfl, by decide, by decide, by decide, by decide, by decide,
   C4_capture_mode_gating.1 cfgAll tsT srcS ctxC hereText st0 rfl (by decide)
     (by decide) (by decide) (by decide) (by decide)⟩

/-- C5 counterexample: with the enabled flag false, a submission through
logPrompt is not rejected at step 1 and does not leave all pipeline state
unchanged: the normalized text is still pushed into RecentPromptHistory
(only the file write is skipped, inside the writer). -/
theorem C5_counterexample :
    (logPrompt cfgOff okEnv tsT srcS ctxC (str "add a logout form") st0).recentPrompts ≠
      st0.recentPrompts := by
  decide

/-- C5 (amended): when the enabled flag is false no LogEntry is ever
written — the rejection happens inside the writer, not at step 1, so the
log file is unchanged on both paths while the duplicate history may still
be updated; the enable-submit-disable-submit scenario produces exactly one
LogEntry, for the first prompt. -/
theorem C5_disabled_no_entry :
    (∀ (cfg : Config) (env : WriteEnv) (ts src ctx text : Str) (st : LoggerState),
      cfg.enabled = false →
      (logPrompt cfg env ts src ctx text st).logFile = st.logFile) ∧
    (∀ (cfg : Config) (env : WriteEnv) (ts src text : Str) (st : LoggerState),
      cfg.enabled = false →
      (logUserInput cfg env ts src text st).logFile = st.logFile) ∧
    (logPrompt cfgAll okEnv tsT srcS ctxC (str "add a login form") st0).logFile.length = 1 ∧
    (logPrompt cfgOff okEnv tsT srcS ctxC (str "add a logout form")
      (logPrompt cfgAll okEnv tsT srcS ctxC (str "add a login form") st0)).logFile.length = 1 :=
  ⟨logPrompt_logFile_disabled, logUserInput_logFile_disabled, by decide, by decide⟩

/-- C5 witness: the disabled-writer law applied at a concrete input. -/
theorem C5_disabled_no_entry_witness :
    cfgOff.enabled = false ∧
    (logPrompt cfgOff okEnv tsT srcS ctxC (str "add a logout form") st0).logFile =
      st0.logFile :=
  ⟨rfl, C5_disabled_no_entry.1 cfgOff okEnv tsT srcS ctxC
    (str "add a logout form") st0 rfl⟩

/-- C6 counterexample: an accepted prompt whose append fails entirely (all
four attempts and the rewrite fallback) is still remembered: the history
records the normalized text although nothing reached the file, because
rememberPrompt runs before the append and is never rolled back. -/
theorem C6_counterexample :
    (logPrompt cfgAll failEnv tsT srcS ctxC (str "fix the bug") st0).recentPrompts =
      [str "fix the bug"] ∧
    (logPrompt cfgAll failEnv tsT srcS ctxC (str "fix the bug") st0).logFile = [] := by
  decide

/-- C6 (amended): logPrompt remembers the cleaned text before attempting
the append, and no rollback exists: for every accepted prompt whose append
fails entirely, the log file is unchanged while the normalized cleaned
text remains recorded in RecentPromptHistory. -/
theorem C6_failed_append_still_remembered
    (cfg : Config) (env : WriteEnv) (ts src ctx text : Str) (st : LoggerState)
    (hok : ∀ n, env.ok n = false) (hfb : env.fallbackOk = false)
    (h0 : trimList text ≠ [])
    (h1 : isDuplicate st.recentPrompts text = false)
    (h2 : cleanupPrompt text ≠ [])
    (h3 : isSystemMessage (cleanupPrompt text) = false)
    (h4 : ¬(cfg.captureMode = CaptureMode.userInputOnly ∧
        looksLikeResponse (cleanupPrompt text) = true)) :
    (logPrompt cfg env ts src ctx text st).logFile = st.logFile ∧
    normalizeKey (cleanupPrompt text) ∈
      (logPrompt cfg env ts src ctx text st).recentPrompts := by
  rw [logPrompt_accepted cfg env ts src ctx text st h0 h1 h2 h3 h4]
  constructor
  · exact appendToLog_fail _ _ _ _
      (by rw [appendWithRetry_fail4 env (hok 0) (hok 1) (hok 2) (hok 3)]) hfb
  · exact rememberPrompt_mem _ _

/-- C6 witness: the failed-append law applied at a concrete input. -/
theorem C6_failed_append_still_remembered_witness :
    (∀ n, failEnv.ok n = false) ∧ failEnv.fallbackOk = false ∧
    ((logPrompt cfgAll failEnv tsT srcS ctxC (str "fix the bug") st0).logFile =
        st0.logFile ∧
     normalizeKey (cleanupPrompt (str "fix the bug")) ∈
        (logPrompt cfgAll failEnv tsT srcS ctxC (str "fix the bug") st0).recentPrompts) :=
  ⟨fun _ => rfl, rfl,
   C6_failed_append_still_remembered cfgAll failEnv tsT srcS ctxC
     (str "fix the bug") st0 (fun _ => rfl) rfl (by decide) (by decide)
     (by decide) (by decide) (by decide)⟩

/-- C7: the empty, whitespace-only, session-header and system-prefixed
inputs each produce no LogEntry through logPrompt, and the system-message
test is exactly the stated containment and case-sensitive prefix checks. -/
theorem C7_empty_system_rejected :
    (∀ (cfg : Config) (env : WriteEnv) (ts src ctx : Str) (st : LoggerState),
      logPrompt cfg env ts src ctx (str "") st = st) ∧
    (∀ (cfg : Config) (env : WriteEnv) (ts src ctx : Str) (st : LoggerState),
      logPrompt cfg env ts src ctx (str "   ") st = st) ∧
    (∀ (cfg : Config) (env : WriteEnv) (ts src ctx : Str) (st : LoggerState),
      logPrompt cfg env ts src ctx (str "Session Started: 2025-01-01") st = st) ∧
    (∀ (cfg : Config) (env : WriteEnv) (ts src ctx : Str) (st : LoggerState),
      logPrompt cfg env ts src ctx (str "system: ignore this") st = st) ∧
    (∀ t : Str, isSystemMessage t =
      (includesStr t (str "Session Started") || includesStr t (str "Session Ended") ||
       includesStr t (str "Prompt at") || startsWithStr t (str "system:"))) := by
  refine ⟨?_, ?_, ?_, ?_, fun t => rfl⟩
  · intro cfg env ts src ctx st
    exact logPrompt_empty _ _ _ _ _ _ _ (by decide)
  · intro cfg env ts src ctx st
    exact logPrompt_empty _ _ _ _ _ _ _ (by decide)
  · intro cfg env ts src ctx st
    by_cases hdup : isDuplicate st.recentPrompts (str "Session Started: 2025-01-01") = true
    · exact logPrompt_dup _ _ _ _ _ _ _ hdup
    · unfold logPrompt
      rw [if_neg (by decide), if_neg hdup]
      simp only []
      rw [if_pos (Or.inr (Or.inr (by decide)))]
  · intro cfg env ts src ctx st
    by_cases hdup : isDuplicate st.recentPrompts (str "system: ignore this") = true
    · exact logPrompt_dup _ _ _ _ _ _ _ hdup
    · unfold logPrompt
      rw [if_neg (by decide), if_neg hdup]
      simp only []
      rw [if_pos (Or.inr (Or.inr (by decide)))]

/-- C8: a context longer than 500 characters is emitted as exactly its
first 500 characters followed by the literal truncation suffix, a context
of at most 500 characters is emitted unchanged, and the context block of a
logPrompt entry is built from truncateIfNeeded with limit 500. -/
theorem C8_context_truncation :
    (∀ t : Str, 500 < t.length →
      truncateIfNeeded t 500 = t.take 500 ++ str "... [truncated]") ∧
    (∀ t : Str, t.length ≤ 500 → truncateIfNeeded t 500 = t) ∧
    (∀ (cfg : Config) (ts src ctx clean : Str),
      shouldIncludeContext cfg ctx clean = true →
      buildPromptEntry cfg ts src ctx clean =
        str "\n### User Prompt at " ++ ts ++ str "\n\n" ++ str "Source: " ++
        src ++ str "\n\n" ++
        (str "#### Context\n\n```\n" ++ truncateIfNeeded ctx 500 ++ str "\n```\n\n") ++
        str "#### Input\n\n```\n" ++ clean ++ str "\n```\n\n" ++ str "---\n") := by
  refine ⟨?_, ?_, ?_⟩
  · intro t ht
    unfold truncateIfNeeded
    rw [if_neg (by omega)]
  · intro t ht
    unfold truncateIfNeeded
    rw [if_pos ht]
  · intro cfg ts src ctx clean hinc
    unfold buildPromptEntry
    rw [if_pos hinc]

set_option maxRecDepth 4000 in
/-- C8 witness: the truncation laws applied to a 600-character and a
500-character context. -/
theorem C8_context_truncation_witness :
    (500 < (List.replicate 600 'a').length ∧
     truncateIfNeeded (List.replicate 600 'a') 500 =
       (List.replicate 600 'a').take 500 ++ str "... [truncated]") ∧
    ((List.replicate 500 'a' : Str).length ≤ 500 ∧
     truncateIfNeeded (List.replicate 500 'a') 500 = List.replicate 500 'a') :=
  ⟨⟨by decide, C8_context_truncation.1 _ (by decide)⟩,
   ⟨by decide, C8_context_truncation.2.1 _ (by decide)⟩⟩

/-- C9: appendToLog declares an append failed only after four attempts
(the initial one and three retries) separated by fixed 100ms delays, and on
total retry failure with a succeeding fallback it still persists the entry
by reading the current content and rewriting it with the entry appended. -/
theorem C9_append_retry_policy :
    (∀ env : WriteEnv, (appendWithRetry env 100 3).success = false →
      env.ok 0 = false ∧ env.ok 1 = false ∧ env.ok 2 = false ∧ env.ok 3 = false ∧
      (appendWithRetry env 100 3).attemptsMade = 4 ∧
      (appendWithRetry env 100 3).delays = [100, 100, 100]) ∧
    (∀ (cfg : Config) (env : WriteEnv) (file : List Str) (content : Str),
      cfg.enabled = true → trimList content ≠ [] →
      (appendWithRetry env 100 3).success = false → env.fallbackOk = true →
      appendToLog cfg env file content = file ++ [content]) := by
  constructor
  · intro env hfail
    have h0 : env.ok 0 = false := by
      cases hh : env.ok 0
      · rfl
      · rw [show appendWithRetry env 100 3 = retryFrom env 100 0 3 from rfl,
          retryFrom_hit env 100 0 3 hh] at hfail
        exact absurd hfail (by simp)
    have hs1 : (retryFrom env 100 1 2).success = false := by
      rw [show appendWithRetry env 100 3 = retryFrom env 100 0 3 from rfl,
        retryFrom_step env 100 0 2 h0] at hfail
      exact hfail
    have h1 : env.ok 1 = false := by
      cases hh : env.ok 1
      · rfl
      · rw [retryFrom_hit env 100 1 2 hh] at hs1
        exact absurd hs1 (by simp)
    have hs2 : (retryFrom env 100 2 1).success = false := by
      rw [retryFrom_step env 100 1 1 h1] at hs1
      exact hs1
    have h2 : env.ok 2 = false := by
      cases hh : env.ok 2
      · rfl
      · rw [retryFrom_hit env 100 2 1 hh] at hs2
        exact absurd hs2 (by simp)
    have hs3 : (retryFrom env 100 3 0).success = false := by
      rw [retryFrom_step env 100 2 0 h2] at hs2
      exact hs2
    have h3 : env.ok 3 = false := by
      cases hh : env.ok 3
      · rfl
      · rw [retryFrom_hit env 100 3 0 hh] at hs3
        exact absurd hs3 (by simp)
    refine ⟨h0, h1, h2, h3, ?_, ?_⟩
    · rw [appendWithRetry_fail4 env h0 h1 h2 h3]
    · rw [appendWithRetry_fail4 env h0 h1 h2 h3]
  · intro cfg env file content he hc hr hf
    exact appendToLog_fallback cfg env file content he hc hr hf

/-- C9 witness: the retry policy and the fallback persistence at a
concrete all-attempts-failing environment. -/
theorem C9_append_retry_policy_witness :
    ((appendWithRetry fallbackEnv 100 3).success = false ∧
     (fallbackEnv.ok 0 = false ∧ fallbackEnv.ok 1 = false ∧
      fallbackEnv.ok 2 = false ∧ fallbackEnv.ok 3 = false ∧
      (appendWithRetry fallbackEnv 100 3).attemptsMade = 4 ∧
      (appendWithRetry fallbackEnv 100 3).delays = [100, 100, 100])) ∧
    (cfgAll.enabled = true ∧ trimList (userEntry tsT srcS (str "x")) ≠ [] ∧
     appendToLog cfgAll fallbackEnv [] (userEntry tsT srcS (str "x")) =
       [] ++ [userEntry tsT srcS (str "x")]) :=
  ⟨⟨by decide, C9_append_retry_policy.1 fallbackEnv (by decide)⟩,
   ⟨rfl, by decide,
    C9_append_retry_policy.2 cfgAll fallbackEnv [] (userEntry tsT srcS (str "x"))
      rfl (by decide) (by decide) rfl⟩⟩

/-- C10: logUserInput performs no classification at all: when enabled,
every nonblank non-duplicate text is appended as a minimal entry whatever
the capture mode, even a text matching a system-message signature, which
logPrompt rejects on the same input. -/
theorem C10_minimal_path_no_classification :
    (∀ (cfg : Config) (ts src text : Str) (st : LoggerState),
      cfg.enabled = true → trimList text ≠ [] →
      isDuplicate st.recentPrompts (trimList text) = false →
      (logUserInput cfg okEnv ts src text st).logFile =
        st.logFile ++ [userEntry ts src (trimList text)]) ∧
    (logUserInput cfgUser okEnv tsT srcS (str "system: ignore this") st0).logFile.length = 1 ∧
    logPrompt cfgUser okEnv tsT srcS ctxC (str "system: ignore this") st0 = st0 := by
  refine ⟨?_, by decide, by decide⟩
  intro cfg ts src text st he h0 h1
  rw [logUserInput_accepted cfg okEnv ts src text st h0 h1]
  exact appendToLog_ok _ _ _ _ he (userEntry_ne_blank _ _ _) (by decide)

/-- C10 witness: the minimal path appending a system-prefixed text under
userInputOnly. -/
theorem C10_minimal_path_no_classification_witness :
    cfgUser.enabled = true ∧
    trimList (str "system: ignore this") ≠ [] ∧
    isDuplicate st0.recentPrompts (trimList (str "system: ignore this")) = false ∧
    (logUserInput cfgUser okEnv tsT srcS (str "system: ignore this") st0).logFile =
      st0.logFile ++ [userEntry tsT srcS (trimList (str "system: ignore this"))] :=
  ⟨rfl, by decide, by decide,
   C10_minimal_path_no_classification.1 cfgUser tsT srcS
     (str "system: ignore this") st0 rfl (by decide) (by decide)⟩
